import Mathlib

/-!
Shallow embedding of the Real Estate Portfolio Game (src/reinnin.app.py).

The SQLite tables become lists of records inside a `GameState`; the
Streamlit views' state effects become state-transition functions.  Money is
modelled by exact rationals; `round2` models rounding to 2 decimals
(SQLite `ROUND` / Python `round`) as round-half-up on the exact value.
Week numbers are integers, as in the `game_state` / `sale_blocks` tables.
-/

namespace ReGame

/-- Config constant `INITIAL_CASH = 26_000_000.0` (€26m starting budget). -/
def INITIAL_CASH : ℚ := 26000000

/-- Config constant `SALE_SOFT_CAP_FACTOR = 1.07` (+7% over entry €/sqm). -/
def SALE_SOFT_CAP_FACTOR : ℚ := 107/100

/-- Config constant `START_WEEK = 1`. -/
def START_WEEK : Int := 1

/-- Config constant `END_WEEK = 14`. -/
def END_WEEK : Int := 14

/-- Config constant `NOI_ACCRUAL_DIVISOR = 52` (weekly accrual of annual NOI). -/
def NOI_ACCRUAL_DIVISOR : ℚ := 52

/-- Rounding to `n` decimal places on exact rationals (half rounds up,
matching the observed behaviour of SQLite `ROUND` and of Python `round`
on the decimal-literal inputs the game uses). -/
def roundTo (n : ℕ) (x : ℚ) : ℚ := (⌊x * 10 ^ n + 1/2⌋ : ℤ) / 10 ^ n

/-- Python `round(x, 2)` and SQLite `ROUND(x, 2)`. -/
def round2 (x : ℚ) : ℚ := roundTo 2 x

/-- A row of the `assets` table. -/
structure Asset where
  asset_id : String
  property_name : String
  sector : String
  location : String
  sqm : Int
  ask_psm : ℚ
  erv_psm : ℚ
  opex_psm : ℚ
  tax_psm : ℚ
  passing_psm : ℚ
  vacancy_pct : ℚ
deriving Repr, DecidableEq

/-- A row of the `teams` table (`name` is the primary key). -/
structure Team where
  name : String
  cash : ℚ
deriving Repr, DecidableEq

/-- A row of the `holdings` table (primary key `(name, asset_id)`);
`property_name`, `sector`, `location`, `sqm` are denormalised copies of
the asset's columns taken at buy time. -/
structure Holding where
  name : String
  asset_id : String
  property_name : String
  sector : String
  location : String
  sqm : Int
  entry_psm : ℚ
  buy_week : Int
deriving Repr, DecidableEq

/-- A row of the `sale_blocks` table (primary key `(name, asset_id)`). -/
structure SaleBlock where
  name : String
  asset_id : String
  blocked_until_week : Int
deriving Repr, DecidableEq

/-- The whole database state: the five tables plus the game clock and the
`applied_curveballs` log. -/
structure GameState where
  assets : List Asset
  teams : List Team
  holdings : List Holding
  sale_blocks : List SaleBlock
  current_week : Int
  applied_curveballs : List Int
deriving Repr, DecidableEq

/-- Function `classify_profile`: prime locations are Core, other Logistics are
Core+, the rest Value-Add. -/
def classify_profile (location sector : String) : String :=
  if location ∈ ["Salamanca", "Chamberí", "Centro", "Chamartín", "Retiro",
                 "Moncloa", "Barajas"] then "Core"
  else if sector = "Logistics" then "Core+"
  else "Value-Add"

/-- Function `profile_factors`: returns `(passing_factor_on_ERV, vacancy_pct)`. -/
def profile_factors (profile : String) : ℚ × ℚ :=
  if profile = "Core" then (1, 4/100)
  else if profile = "Core+" then (92/100, 12/100)
  else (85/100, 25/100)

/-- The columns `asset_noi_from_table` reads from a joined row:
`sqm, passing_psm, vacancy_pct, opex_psm, tax_psm`. -/
structure NoiRow where
  sqm : Int
  passing_psm : ℚ
  vacancy_pct : ℚ
  opex_psm : ℚ
  tax_psm : ℚ
deriving Repr, DecidableEq

/-- Function `asset_noi_from_table`: annual NOI (€) of one row. -/
def asset_noi_from_table (row : NoiRow) : ℚ :=
  let sqm : ℚ := row.sqm
  let passing := row.passing_psm
  let vac := row.vacancy_pct
  let opex_psm := row.opex_psm
  let tax_psm := row.tax_psm
  let occupied_sqm := sqm * (1 - vac)
  let effective_gross := passing * 12 * occupied_sqm
  let opex_total := opex_psm * sqm
  let tax_total := tax_psm * sqm
  let noi := effective_gross - opex_total - tax_total
  round2 noi

/-- Function `get_team_cash`: `SELECT cash FROM teams WHERE name=?` (first row, if any). -/
def get_team_cash (teams : List Team) (name : String) : Option ℚ :=
  (teams.find? (fun t => t.name = name)).map (fun t => t.cash)

/-- Function `ensure_team`: `INSERT OR IGNORE INTO teams (name, cash) VALUES (?, INITIAL_CASH)`. -/
def ensure_team (teams : List Team) (name : String) : List Team :=
  if teams.any (fun t => t.name = name) then teams
  else teams ++ [⟨name, INITIAL_CASH⟩]

/-- Function `set_team_cash`: `UPDATE teams SET cash=? WHERE name=?`. -/
def set_team_cash (teams : List Team) (name : String) (cash : ℚ) : List Team :=
  teams.map (fun t => if t.name = name then { t with cash := cash } else t)

/-- Function `add_holding`: `INSERT OR REPLACE INTO holdings ...` with the asset's
denormalised columns; keyed on `(name, asset_id)`. -/
def add_holding (holdings : List Holding) (name : String) (a : Asset)
    (entry_psm : ℚ) (buy_week : Int) : List Holding :=
  ⟨name, a.asset_id, a.property_name, a.sector, a.location, a.sqm,
     entry_psm, buy_week⟩ ::
    holdings.filter (fun h => ¬(h.name = name ∧ h.asset_id = a.asset_id))

/-- Function `remove_holding`: `DELETE FROM holdings WHERE name=? AND asset_id=?`. -/
def remove_holding (holdings : List Holding) (name asset_id : String) : List Holding :=
  holdings.filter (fun h => ¬(h.name = name ∧ h.asset_id = asset_id))

/-- Function `is_blocked`: returns `(current_week < blocked_until, blocked_until)`,
or `(False, -1)` when no `sale_blocks` row exists for the pair. -/
def is_blocked (blocks : List SaleBlock) (name asset_id : String)
    (current_week : Int) : Bool × Int :=
  match blocks.find? (fun b => b.name = name ∧ b.asset_id = asset_id) with
  | none => (false, -1)
  | some b => (decide (current_week < b.blocked_until_week), b.blocked_until_week)

/-- Function `block_until_next_week`: `INSERT OR REPLACE INTO sale_blocks ... VALUES
(?, ?, current_week + 1)`. -/
def block_until_next_week (blocks : List SaleBlock) (name asset_id : String)
    (current_week : Int) : List SaleBlock :=
  ⟨name, asset_id, current_week + 1⟩ ::
    blocks.filter (fun b => ¬(b.name = name ∧ b.asset_id = asset_id))

/-- Function `clear_block`: `DELETE FROM sale_blocks WHERE name=? AND asset_id=?`. -/
def clear_block (blocks : List SaleBlock) (name asset_id : String) : List SaleBlock :=
  blocks.filter (fun b => ¬(b.name = name ∧ b.asset_id = asset_id))

/-- Function `curveball_applied`: `SELECT 1 FROM applied_curveballs WHERE week=?` is nonempty. -/
def curveball_applied (log : List Int) (week : Int) : Bool :=
  log.contains week

/-- Function `mark_curveball_applied`: `INSERT OR IGNORE INTO applied_curveballs (week)`. -/
def mark_curveball_applied (log : List Int) (week : Int) : List Int :=
  if log.contains week then log else week :: log

/-- The joined row `holdings h JOIN assets a ON a.asset_id = h.asset_id`:
holding's `sqm`/`entry_psm` with the asset's current income parameters. -/
def joined_rows (holdings : List Holding) (assets : List Asset)
    (name : String) : List (Holding × Asset) :=
  (holdings.filter (fun h => h.name = name)).filterMap
    (fun h => (assets.find? (fun a => a.asset_id = h.asset_id)).map (fun a => (h, a)))

/-- The `NoiRow` taken from one joined row. -/
def row_of_join (ha : Holding × Asset) : NoiRow :=
  ⟨ha.1.sqm, ha.2.passing_psm, ha.2.vacancy_pct, ha.2.opex_psm, ha.2.tax_psm⟩

/-- Function `portfolio_metrics`: `(total_ticket, total_annual_noi, portfolio_roi)`
over the team's current holdings joined with current asset parameters. -/
def portfolio_metrics (holdings : List Holding) (assets : List Asset)
    (name : String) : ℚ × ℚ × Option ℚ :=
  let rows := joined_rows holdings assets name
  if rows.isEmpty then (0, 0, none)
  else
    let total_ticket := (rows.map (fun ha => ha.1.entry_psm * (ha.1.sqm : ℚ))).sum
    let total_noi := (rows.map (fun ha => asset_noi_from_table (row_of_join ha))).sum
    let roi : Option ℚ := if 0 < total_ticket then some (total_noi / total_ticket) else none
    (round2 total_ticket, round2 total_noi, roi.map (roundTo 6))

/-- The team's `annual_noi` as `accrue_weekly_income_all_teams` reads it
(second component of `portfolio_metrics`). -/
def team_annual_noi (holdings : List Holding) (assets : List Asset)
    (name : String) : ℚ :=
  (portfolio_metrics holdings assets name).2.1

/-- The loop body of `accrue_weekly_income_all_teams` for one team name:
`weekly = annual_noi / NOI_ACCRUAL_DIVISOR`; if nonzero, set the team's
cash to `(get_team_cash(name) or 0.0) + weekly`. -/
def accrue_step (holdings : List Holding) (assets : List Asset)
    (teams : List Team) (name : String) : List Team :=
  let annual_noi := team_annual_noi holdings assets name
  let weekly := annual_noi / NOI_ACCRUAL_DIVISOR
  if weekly ≠ 0 then
    set_team_cash teams name ((get_team_cash teams name).getD 0 + weekly)
  else teams

/-- Function `accrue_weekly_income_all_teams`: iterate the loop body over the
snapshot of team names.  (The Python function also returns display-only
counters `(teams_updated, total_accrued)`, omitted here.) -/
def accrue_weekly_income_all_teams (s : GameState) : GameState :=
  { s with teams :=
      (s.teams.map (fun t => t.name)).foldl (accrue_step s.holdings s.assets) s.teams }

/-- The per-asset numeric effect of `apply_curveball_effects` for `week`,
given the set of currently held asset ids (used only by week 4). -/
def curveball_update (week : Int) (held_ids : List String) (a : Asset) : Asset :=
  if week = 2 then
    if a.sector = "Retail" then { a with erv_psm := round2 (a.erv_psm * (95/100)) } else a
  else if week = 4 then
    if a.asset_id ∈ held_ids then a
    else { a with ask_psm := round2 (a.ask_psm * (107/100)) }
  else if week = 6 then { a with tax_psm := round2 (a.tax_psm * (103/100)) }
  else if week = 7 then
    if a.sector = "Office" ∨ a.sector = "Retail" then
      { a with erv_psm := round2 (a.erv_psm * (80/100)) }
    else a
  else if week = 9 then { a with opex_psm := round2 (a.opex_psm * (112/100)) }
  else if week = 12 then
    if a.sector = "Residential" then { a with erv_psm := round2 (a.erv_psm * (102/100)) }
    else a
  else a

/-- The `passing_psm` recomputation run after the ERV-shifting weeks:
`passing_psm = round(erv_psm * profile_factor, 2)`. -/
def recompute_passing (a : Asset) : Asset :=
  { a with passing_psm :=
      round2 (a.erv_psm * (profile_factors (classify_profile a.location a.sector)).1) }

/-- Function `apply_curveball_effects(week)`: no-op if the week is already in
`applied_curveballs`; otherwise apply the week's numeric effect to every
asset, recompute `passing_psm` after ERV shifts (weeks 2, 7, 12), and
mark the week applied. -/
def apply_curveball_effects (week : Int) (s : GameState) : GameState :=
  if curveball_applied s.applied_curveballs week then s
  else
    let held_ids := s.holdings.map (fun h => h.asset_id)
    let assets1 := s.assets.map (curveball_update week held_ids)
    let assets2 :=
      if week = 2 ∨ week = 7 ∨ week = 12 then assets1.map recompute_passing
      else assets1
    { s with assets := assets2,
             applied_curveballs := mark_curveball_applied s.applied_curveballs week }

/-- Outcome of a buy attempt. -/
inductive BuyResult where
  | success
  | insufficientFunds
  | assetUnavailable
  | assetNotFound
deriving Repr, DecidableEq

/-- The state effect of `buy_view` for one chosen asset: `ensure_team`;
the asset must not appear in any team's holdings (supply gating);
`ticket = sqm * ask_psm` must not exceed cash; on success deduct the
ticket and `add_holding` at entry price `ask_psm` and week `get_week()`. -/
def buy_view (s : GameState) (name asset_id : String) : BuyResult × GameState :=
  let s1 := { s with teams := ensure_team s.teams name }
  match s1.assets.find? (fun a => a.asset_id = asset_id) with
  | none => (.assetNotFound, s1)
  | some a =>
    if s1.holdings.any (fun h => h.asset_id = asset_id) then (.assetUnavailable, s1)
    else
      let cash := (get_team_cash s1.teams name).getD 0
      let ticket := (a.sqm : ℚ) * a.ask_psm
      if ticket > cash then (.insufficientFunds, s1)
      else
        (.success,
         { s1 with teams := set_team_cash s1.teams name (cash - ticket),
                   holdings := add_holding s1.holdings name a a.ask_psm s1.current_week })

/-- Outcome of a sell attempt. -/
inductive SellResult where
  | success
  | noHolding
  | blocked (until_week : Int)
  | rejectedCapExceeded
deriving Repr, DecidableEq

/-- The state effect of `sell_view` for one chosen holding and proposed
exit price: cap `= round(entry_psm * SALE_SOFT_CAP_FACTOR, 2)`; an active
block rejects the attempt; a price above the cap creates a block until
next week and changes nothing else; otherwise credit `sqm * price`,
set the asset's `ask_psm` to the price, remove the holding and clear
the block. -/
def sell_view (s : GameState) (name asset_id : String) (proposed_exit_psm : ℚ) :
    SellResult × GameState :=
  match s.holdings.find? (fun h => h.name = name ∧ h.asset_id = asset_id) with
  | none => (.noHolding, s)
  | some h =>
    let max_exit_this_week := round2 (h.entry_psm * SALE_SOFT_CAP_FACTOR)
    let bl := is_blocked s.sale_blocks name asset_id s.current_week
    if bl.1 then (.blocked bl.2, s)
    else if proposed_exit_psm > max_exit_this_week then
      (.rejectedCapExceeded,
       { s with sale_blocks :=
           block_until_next_week s.sale_blocks name asset_id s.current_week })
    else
      let proceeds := (h.sqm : ℚ) * proposed_exit_psm
      let cash := (get_team_cash s.teams name).getD 0
      (.success,
       { s with
          teams := set_team_cash s.teams name (cash + proceeds),
          assets := s.assets.map (fun a =>
            if a.asset_id = asset_id then { a with ask_psm := proposed_exit_psm } else a),
          holdings := remove_holding s.holdings name asset_id,
          sale_blocks := clear_block s.sale_blocks name asset_id })

/-- The instructor's `End Week` button: if `current_week < END_WEEK`,
accrue income for all teams at current parameters, advance the week,
then apply the new week's curveball; otherwise do nothing. -/
def end_week (s : GameState) : GameState :=
  if s.current_week < END_WEEK then
    let s1 := accrue_weekly_income_all_teams s
    let s2 := { s1 with current_week := s.current_week + 1 }
    apply_curveball_effects (s.current_week + 1) s2
  else s

/-! ### Helper lemmas -/

lemma get_team_cash_any {teams : List Team} {name : String} {c : ℚ}
    (h : get_team_cash teams name = some c) :
    teams.any (fun t => t.name = name) = true := by
  induction teams with
  | nil => simp [get_team_cash] at h
  | cons t ts ih =>
    by_cases ht : t.name = name
    · simp [ht]
    · simp only [get_team_cash, List.find?] at h ⊢
      rw [show (decide (t.name = name)) = false by simp [ht]] at h
      simp only [List.any_cons, ht]
      exact Bool.or_eq_true_iff.mpr (Or.inr (ih h))

lemma ensure_team_of_get {teams : List Team} {name : String} {c : ℚ}
    (h : get_team_cash teams name = some c) :
    ensure_team teams name = teams := by
  simp [ensure_team, get_team_cash_any h]

lemma get_set_team_cash {teams : List Team} {name : String} {c : ℚ} (v : ℚ)
    (h : get_team_cash teams name = some c) :
    get_team_cash (set_team_cash teams name v) name = some v := by
  induction teams with
  | nil => simp [get_team_cash] at h
  | cons t ts ih =>
    by_cases ht : t.name = name
    · simp [get_team_cash, set_team_cash, List.find?, ht]
    · simp only [get_team_cash, List.find?] at h
      rw [show (decide (t.name = name)) = false by simp [ht]] at h
      simpa [get_team_cash, set_team_cash, List.find?, ht] using ih h

lemma set_team_cash_map_name (teams : List Team) (name : String) (v : ℚ) :
    (set_team_cash teams name v).map Team.name = teams.map Team.name := by
  induction teams with
  | nil => rfl
  | cons t ts ih =>
    by_cases ht : t.name = name <;> simp [set_team_cash, ht] at ih ⊢ <;> exact ih

/-- Lemma: `find?` returns `none` on the residue of filtering out exactly the
matching elements (holdings after `remove_holding`, blocks after `clear_block`). -/
lemma find?_filter_not {α : Type} (l : List α) (p : α → Prop) [DecidablePred p] :
    (l.filter (fun x => ¬ p x)).find? (fun x => p x) = none := by
  rw [List.find?_eq_none]
  intro x hx
  have := (List.mem_filter.mp hx).2
  simpa using this

/-- Lemma: `find?` by key commutes with a map that preserves the key. -/
lemma find?_map_key {α : Type} (l : List α) (key : α → String) (k : String)
    (f : α → α) (hf : ∀ x, key (f x) = key x) :
    (l.map f).find? (fun x => key x = k) =
      (l.find? (fun x => key x = k)).map f := by
  induction l with
  | nil => rfl
  | cons x xs ih =>
    by_cases hx : key x = k
    · simp [List.find?, hf, hx]
    · simp only [List.map_cons, List.find?]
      rw [show (decide (key (f x) = k)) = false by simp [hf, hx],
          show (decide (key x = k)) = false by simp [hx]]
      exact ih

lemma find?_of_mem_nodup {teams : List Team} {t : Team}
    (hnd : (teams.map Team.name).Nodup) (ht : t ∈ teams) :
    teams.find? (fun x => x.name = t.name) = some t := by
  induction teams with
  | nil => simp at ht
  | cons u ts ih =>
    rcases List.mem_cons.mp ht with rfl | hmem
    · simp [List.find?]
    · have hne : u.name ≠ t.name := by
        intro he
        exact (List.nodup_cons.mp hnd).1 (he ▸ List.mem_map_of_mem Team.name hmem)
      simp only [List.find?]
      rw [show (decide (u.name = t.name)) = false by simp [hne]]
      exact ih (List.nodup_cons.mp hnd).2 hmem

/-! ### Curveball frame and idempotence lemmas -/

lemma mark_contains (log : List Int) (w : Int) :
    (mark_curveball_applied log w).contains w = true := by
  rw [mark_curveball_applied]
  split
  · assumption
  · simp

lemma apply_curveball_of_applied {w : Int} {s : GameState}
    (h : curveball_applied s.applied_curveballs w = true) :
    apply_curveball_effects w s = s := by
  simp [apply_curveball_effects, h]

lemma apply_curveball_log (w : Int) (s : GameState) :
    (apply_curveball_effects w s).applied_curveballs =
      if curveball_applied s.applied_curveballs w then s.applied_curveballs
      else mark_curveball_applied s.applied_curveballs w := by
  by_cases h : curveball_applied s.applied_curveballs w <;>
    simp [apply_curveball_effects, h]

lemma apply_curveball_contains (w : Int) (s : GameState) :
    (apply_curveball_effects w s).applied_curveballs.contains w = true := by
  rw [apply_curveball_log]
  by_cases h : curveball_applied s.applied_curveballs w
  · rw [if_pos h]; exact h
  · rw [if_neg h]; exact mark_contains _ _

lemma apply_curveball_idem (w : Int) (s : GameState) :
    apply_curveball_effects w (apply_curveball_effects w s) =
      apply_curveball_effects w s :=
  apply_curveball_of_applied (by simpa [curveball_applied] using apply_curveball_contains w s)

lemma apply_curveball_teams (w : Int) (s : GameState) :
    (apply_curveball_effects w s).teams = s.teams := by
  by_cases h : curveball_applied s.applied_curveballs w <;>
    simp [apply_curveball_effects, h]

lemma apply_curveball_holdings (w : Int) (s : GameState) :
    (apply_curveball_effects w s).holdings = s.holdings := by
  by_cases h : curveball_applied s.applied_curveballs w <;>
    simp [apply_curveball_effects, h]

lemma apply_curveball_blocks (w : Int) (s : GameState) :
    (apply_curveball_effects w s).sale_blocks = s.sale_blocks := by
  by_cases h : curveball_applied s.applied_curveballs w <;>
    simp [apply_curveball_effects, h]

lemma apply_curveball_week (w : Int) (s : GameState) :
    (apply_curveball_effects w s).current_week = s.current_week := by
  by_cases h : curveball_applied s.applied_curveballs w <;>
    simp [apply_curveball_effects, h]

/-! ### Accrual lemmas -/

lemma accrue_assets (s : GameState) :
    (accrue_weekly_income_all_teams s).assets = s.assets := rfl

lemma accrue_holdings (s : GameState) :
    (accrue_weekly_income_all_teams s).holdings = s.holdings := rfl

lemma accrue_blocks (s : GameState) :
    (accrue_weekly_income_all_teams s).sale_blocks = s.sale_blocks := rfl

lemma accrue_week (s : GameState) :
    (accrue_weekly_income_all_teams s).current_week = s.current_week := rfl

/-- The crediting applied to one team by a full accrual pass. -/
def credit_team (holdings : List Holding) (assets : List Asset) (t : Team) : Team :=
  { t with cash := t.cash + team_annual_noi holdings assets t.name / NOI_ACCRUAL_DIVISOR }

lemma accrue_foldl (holdings : List Holding) (assets : List Asset) :
    ∀ (names : List String) (ts : List Team),
      (ts.map Team.name).Nodup → names.Nodup →
      names.foldl (accrue_step holdings assets) ts =
        ts.map (fun t =>
          if t.name ∈ names then credit_team holdings assets t else t) := by
  intro names
  induction names with
  | nil =>
    intro ts _ _
    simp
  | cons n rest ih =>
    intro ts hts hnames
    have hnnotin : n ∉ rest := (List.nodup_cons.mp hnames).1
    have hrest : rest.Nodup := (List.nodup_cons.mp hnames).2
    rw [List.foldl_cons]
    by_cases hw : team_annual_noi holdings assets n / NOI_ACCRUAL_DIVISOR = 0
    · have hstep : accrue_step holdings assets ts n = ts := by
        simp [accrue_step, hw]
      rw [hstep, ih ts hts hrest]
      apply List.map_congr_left
      intro t _
      by_cases htn : t.name = n
      · rw [if_neg (by rw [htn]; exact hnnotin),
            if_pos (by rw [htn]; exact List.mem_cons_self n rest)]
        have : team_annual_noi holdings assets t.name / NOI_ACCRUAL_DIVISOR = 0 := by
          rw [htn]; exact hw
        simp [credit_team, this]
      · by_cases htr : t.name ∈ rest
        · rw [if_pos htr, if_pos (List.mem_cons_of_mem n htr)]
        · rw [if_neg htr, if_neg (by simp [htn, htr])]
    · have hstep : accrue_step holdings assets ts n =
          set_team_cash ts n ((get_team_cash ts n).getD 0 +
            team_annual_noi holdings assets n / NOI_ACCRUAL_DIVISOR) := by
        simp [accrue_step, hw]
      rw [hstep]
      have hts' : ((set_team_cash ts n ((get_team_cash ts n).getD 0 +
          team_annual_noi holdings assets n / NOI_ACCRUAL_DIVISOR)).map Team.name).Nodup := by
        rw [set_team_cash_map_name]; exact hts
      rw [ih _ hts' hrest, set_team_cash, List.map_map]
      apply List.map_congr_left
      intro t ht
      by_cases htn : t.name = n
      · have hfind : ts.find? (fun x => x.name = n) = some t := by
          have := find?_of_mem_nodup hts ht
          rwa [htn] at this
        have hget : get_team_cash ts n = some t.cash := by
          simp [get_team_cash, hfind]
        simp only [Function.comp_apply, if_pos htn]
        rw [if_neg (show ¬(Team.mk t.name _).name ∈ rest by
              simpa [htn] using hnnotin),
            if_pos (by rw [htn]; exact List.mem_cons_self n rest)]
        simp [credit_team, hget, htn]
      · simp only [Function.comp_apply, if_neg htn]
        by_cases htr : t.name ∈ rest
        · rw [if_pos htr, if_pos (List.mem_cons_of_mem n htr)]
        · rw [if_neg htr, if_neg (by simp [htn, htr])]

/-- With distinct team names (the table's primary key), one accrual pass
credits every team with exactly its annual NOI over the accrual divisor. -/
lemma accrue_teams_eq (s : GameState) (hnd : (s.teams.map Team.name).Nodup) :
    (accrue_weekly_income_all_teams s).teams =
      s.teams.map (credit_team s.holdings s.assets) := by
  show (s.teams.map (fun t => t.name)).foldl (accrue_step s.holdings s.assets) s.teams = _
  rw [show (s.teams.map (fun t => t.name)) = s.teams.map Team.name from rfl,
      accrue_foldl s.holdings s.assets (s.teams.map Team.name) s.teams hnd hnd]
  apply List.map_congr_left
  intro t ht
  rw [if_pos (List.mem_map_of_mem Team.name ht)]

/-! ### Spec-side definition for the income model (refinement target) -/

/-- The income formula exactly as the spec states it (§4.2):
`occupied_area = size × (1 − vacancy)`,
`effective_gross_income = passing_rent × 12 × occupied_area`,
`opex_total = opex × size`, `tax_total = tax × size`,
result rounded to 2 decimals, no floor at zero. -/
def annual_noi_spec (row : NoiRow) : ℚ :=
  let occupied_area : ℚ := (row.sqm : ℚ) * (1 - row.vacancy_pct)
  let effective_gross_income := row.passing_psm * 12 * occupied_area
  let opex_total := row.opex_psm * (row.sqm : ℚ)
  let tax_total := row.tax_psm * (row.sqm : ℚ)
  round2 (effective_gross_income - opex_total - tax_total)

/-! ### Claim theorems -/

/-- C2: applying the Market Shock Engine twice for the same week yields
the same state as applying it once — the second call sees the week
already recorded in `applied_curveballs` and is a no-op. -/
theorem shock_engine_idempotent (w : Int) (s : GameState) :
    apply_curveball_effects w (apply_curveball_effects w s) =
      apply_curveball_effects w s :=
  apply_curveball_idem w s

/-- C5: `asset_noi_from_table` is exactly the spec's pure income formula
(no floor at zero: the third conjunct exhibits a negative result), and
on size 4200, passing rent 300, vacancy 0.04, opex 31.2, tax 24 it
returns exactly 14,283,360. -/
theorem annual_noi_formula :
    (∀ row : NoiRow, asset_noi_from_table row = annual_noi_spec row) ∧
    asset_noi_from_table ⟨4200, 300, 4/100, 156/5, 24⟩ = 14283360 ∧
    asset_noi_from_table ⟨1, 0, 0, 1, 1⟩ = -2 := by
  refine ⟨fun row => ?_, ?_, ?_⟩
  · rfl
  · norm_num [asset_noi_from_table, round2, roundTo]
  · norm_num [asset_noi_from_table, round2, roundTo]

lemma map_curveball_update_announce {w : Int}
    (hw : w ∈ ([1, 3, 5, 8, 10, 11, 13, 14] : List Int))
    (held : List String) (assets : List Asset) :
    assets.map (curveball_update w held) = assets := by
  induction assets with
  | nil => rfl
  | cons a rest ih =>
    rw [List.map_cons, ih]
    have ha : curveball_update w held a = a := by
      fin_cases hw <;> simp [curveball_update]
    rw [ha]

/-- C9: on the announcement-only weeks 1, 3, 5, 8, 10, 11, 13, 14 the
shock engine leaves every asset unchanged, yet the week ends up recorded
in `applied_curveballs`, so a later call for the same week is a no-op. -/
theorem announcement_weeks_frame (w : Int) (s : GameState)
    (hw : w ∈ ([1, 3, 5, 8, 10, 11, 13, 14] : List Int)) :
    (apply_curveball_effects w s).assets = s.assets ∧
    (apply_curveball_effects w s).applied_curveballs.contains w = true ∧
    apply_curveball_effects w (apply_curveball_effects w s) =
      apply_curveball_effects w s := by
  refine ⟨?_, apply_curveball_contains w s, apply_curveball_idem w s⟩
  by_cases h : curveball_applied s.applied_curveballs w
  · rw [apply_curveball_of_applied h]
  · have h271 : ¬(w = 2 ∨ w = 7 ∨ w = 12) := by fin_cases hw <;> decide
    simp [apply_curveball_effects, h, h271, map_curveball_update_announce hw]

/-- Witness for C9 at week 3 on a concrete one-asset state. -/
theorem announcement_weeks_frame_witness :
    (3 : Int) ∈ ([1, 3, 5, 8, 10, 11, 13, 14] : List Int) ∧
    ((apply_curveball_effects 3 ⟨[], [], [], [], 3, []⟩).assets =
        (⟨[], [], [], [], 3, []⟩ : GameState).assets ∧
      (apply_curveball_effects 3 ⟨[], [], [], [], 3, []⟩).applied_curveballs.contains 3 = true ∧
      apply_curveball_effects 3 (apply_curveball_effects 3 ⟨[], [], [], [], 3, []⟩) =
        apply_curveball_effects 3 ⟨[], [], [], [], 3, []⟩) :=
  ⟨by decide, announcement_weeks_frame 3 ⟨[], [], [], [], 3, []⟩ (by decide)⟩

/-- C10: accrual credits the raw signed weekly NOI with no floor and no
cash check — a team whose annual NOI over its holdings is negative has
its cash changed by exactly `annual_noi / 52`, a strict decrease. -/
theorem accrual_unfloored (s : GameState) (t : Team)
    (hnd : (s.teams.map Team.name).Nodup) (ht : t ∈ s.teams)
    (hneg : team_annual_noi s.holdings s.assets t.name < 0) :
    get_team_cash (accrue_weekly_income_all_teams s).teams t.name =
      some (t.cash + team_annual_noi s.holdings s.assets t.name / NOI_ACCRUAL_DIVISOR) ∧
    t.cash + team_annual_noi s.holdings s.assets t.name / NOI_ACCRUAL_DIVISOR < t.cash := by
  constructor
  · rw [accrue_teams_eq s hnd, get_team_cash,
        find?_map_key s.teams Team.name t.name (credit_team s.holdings s.assets)
          (fun x => rfl),
        find?_of_mem_nodup hnd ht]
    rfl
  · have hdiv : team_annual_noi s.holdings s.assets t.name / NOI_ACCRUAL_DIVISOR < 0 := by
      apply div_neg_of_neg_of_pos hneg
      norm_num [NOI_ACCRUAL_DIVISOR]
    linarith

/-- A loss-making asset: passing rent 0 but opex 52 €/sqm/yr. -/
def lossAsset : Asset :=
  ⟨"A099", "LOSS", "Office", "Usera", 100, 10, 0, 52, 0, 0, 0⟩

/-- A state in which team `T` holds only `lossAsset` with €1 of cash. -/
def lossState : GameState :=
  ⟨[lossAsset], [⟨"T", 1⟩],
   [⟨"T", "A099", "LOSS", "Office", "Usera", 100, 10, 1⟩], [], 1, []⟩

/-- Witness for C10: in `lossState` the annual NOI is −5200, accrual
debits 100 and leaves the team at −99 — negative cash through accrual. -/
theorem accrual_unfloored_witness :
    (get_team_cash (accrue_weekly_income_all_teams lossState).teams "T" =
        some (1 + team_annual_noi lossState.holdings lossState.assets "T" /
          NOI_ACCRUAL_DIVISOR) ∧
      1 + team_annual_noi lossState.holdings lossState.assets "T" /
          NOI_ACCRUAL_DIVISOR < 1) ∧
    1 + team_annual_noi lossState.holdings lossState.assets "T" /
        NOI_ACCRUAL_DIVISOR = -99 :=
  ⟨accrual_unfloored lossState ⟨"T", 1⟩ (by simp [lossState])
      (by simp [lossState])
      (by simp [lossState, lossAsset, team_annual_noi, portfolio_metrics,
            joined_rows, row_of_join, asset_noi_from_table, round2, roundTo]
          norm_num),
   by simp [lossState, lossAsset, team_annual_noi, portfolio_metrics,
        joined_rows, row_of_join, asset_noi_from_table, round2, roundTo,
        NOI_ACCRUAL_DIVISOR]
      norm_num⟩

/-- C4: `End Week` with current week `w < 14` accrues income computed
from the holdings and catalog as they stand at week `w` (accrual changes
neither), then advances the clock to `w + 1`, then applies that week's
shock (which never changes any team's cash); at week 14 it is a no-op. -/
theorem advance_week_sequence (s : GameState)
    (hnd : (s.teams.map Team.name).Nodup) :
    (s.current_week < END_WEEK →
      end_week s =
        apply_curveball_effects (s.current_week + 1)
          { accrue_weekly_income_all_teams s with
              current_week := s.current_week + 1 } ∧
      (accrue_weekly_income_all_teams s).teams =
        s.teams.map (fun t =>
          { t with cash := t.cash +
              team_annual_noi s.holdings s.assets t.name / NOI_ACCRUAL_DIVISOR }) ∧
      (accrue_weekly_income_all_teams s).assets = s.assets ∧
      (accrue_weekly_income_all_teams s).holdings = s.holdings ∧
      (end_week s).current_week = s.current_week + 1 ∧
      ∀ (w : Int) (u : GameState), (apply_curveball_effects w u).teams = u.teams) ∧
    (s.current_week = END_WEEK → end_week s = s) := by
  constructor
  · intro hlt
    refine ⟨?_, accrue_teams_eq s hnd, rfl, rfl, ?_, fun w u => apply_curveball_teams w u⟩
    · rw [end_week, if_pos hlt]
    · rw [end_week, if_pos hlt, apply_curveball_week]
  · intro heq
    rw [end_week, if_neg (by rw [heq]; exact lt_irrefl END_WEEK)]

/-- Witness for C4 on a concrete one-team state at week 1. -/
theorem advance_week_sequence_witness :
    ((lossState.teams.map Team.name).Nodup) ∧
    ((lossState.current_week < END_WEEK →
      end_week lossState =
        apply_curveball_effects (lossState.current_week + 1)
          { accrue_weekly_income_all_teams lossState with
              current_week := lossState.current_week + 1 } ∧
      (accrue_weekly_income_all_teams lossState).teams =
        lossState.teams.map (fun t =>
          { t with cash := t.cash +
              team_annual_noi lossState.holdings lossState.assets t.name /
                NOI_ACCRUAL_DIVISOR }) ∧
      (accrue_weekly_income_all_teams lossState).assets = lossState.assets ∧
      (accrue_weekly_income_all_teams lossState).holdings = lossState.holdings ∧
      (end_week lossState).current_week = lossState.current_week + 1 ∧
      ∀ (w : Int) (u : GameState), (apply_curveball_effects w u).teams = u.teams) ∧
    (lossState.current_week = END_WEEK → end_week lossState = lossState)) :=
  ⟨by simp [lossState], advance_week_sequence lossState (by simp [lossState])⟩

/-- C1: a sell attempt on an unblocked holding with entry price `e` and
cap `round(e × 1.07, 2)`: above the cap it is rejected with a SaleBlock
until `current_week + 1`, cash and the holding untouched; at or below the
cap it succeeds, credits `size × price`, destroys the holding, re-lists
the asset at the exit price and clears the block. -/
theorem sell_cap_rule (s : GameState) (name aid : String) (p c : ℚ)
    (h : Holding) (a : Asset)
    (hh : s.holdings.find? (fun x => x.name = name ∧ x.asset_id = aid) = some h)
    (hb : (is_blocked s.sale_blocks name aid s.current_week).1 = false)
    (hc : get_team_cash s.teams name = some c)
    (ha : s.assets.find? (fun x => x.asset_id = aid) = some a) :
    (p > round2 (h.entry_psm * SALE_SOFT_CAP_FACTOR) →
      (sell_view s name aid p).1 = SellResult.rejectedCapExceeded ∧
      (sell_view s name aid p).2.sale_blocks.find?
          (fun b => b.name = name ∧ b.asset_id = aid) =
        some ⟨name, aid, s.current_week + 1⟩ ∧
      (sell_view s name aid p).2.teams = s.teams ∧
      (sell_view s name aid p).2.holdings = s.holdings) ∧
    (p ≤ round2 (h.entry_psm * SALE_SOFT_CAP_FACTOR) →
      (sell_view s name aid p).1 = SellResult.success ∧
      get_team_cash (sell_view s name aid p).2.teams name =
        some (c + (h.sqm : ℚ) * p) ∧
      (sell_view s name aid p).2.holdings.find?
          (fun x => x.name = name ∧ x.asset_id = aid) = none ∧
      (sell_view s name aid p).2.assets.find? (fun x => x.asset_id = aid) =
        some { a with ask_psm := p } ∧
      (sell_view s name aid p).2.sale_blocks.find?
          (fun b => b.name = name ∧ b.asset_id = aid) = none) := by
  have haid : a.asset_id = aid := by
    have := List.find?_some ha
    simpa using this
  constructor
  · intro hp
    have hsell : sell_view s name aid p =
        (SellResult.rejectedCapExceeded,
         { s with sale_blocks :=
             block_until_next_week s.sale_blocks name aid s.current_week }) := by
      simp only [sell_view, hh, hb, Bool.false_eq_true, if_false, if_pos hp]
    rw [hsell]
    refine ⟨rfl, ?_, rfl, rfl⟩
    simp [block_until_next_week]
  · intro hp
    have hsell : sell_view s name aid p =
        (SellResult.success,
         { s with
            teams := set_team_cash s.teams name
              ((get_team_cash s.teams name).getD 0 + (h.sqm : ℚ) * p),
            assets := s.assets.map (fun a =>
              if a.asset_id = aid then { a with ask_psm := p } else a),
            holdings := remove_holding s.holdings name aid,
            sale_blocks := clear_block s.sale_blocks name aid }) := by
      simp only [sell_view, hh, hb, Bool.false_eq_true, if_false,
        if_neg (not_lt.mpr hp)]
    rw [hsell]
    refine ⟨rfl, ?_, ?_, ?_, ?_⟩
    · rw [hc]
      simpa using get_set_team_cash _ hc
    · exact find?_filter_not s.holdings
        (fun x => x.name = name ∧ x.asset_id = aid)
    · rw [find?_map_key s.assets Asset.asset_id aid _
          (fun x => by by_cases hx : x.asset_id = aid <;> simp [hx]), ha]
      simp [haid]
    · exact find?_filter_not s.sale_blocks
        (fun b => b.name = name ∧ b.asset_id = aid)

/-- A catalog asset used by concrete witnesses. -/
def resAsset : Asset :=
  ⟨"A001", "RES-MAD-SALAMAN-01", "Residential", "Salamanca", 4200, 5200,
   312, 312/10, 24, 312, 4/100⟩

/-- A state where team `T` holds `resAsset` bought at €5200/sqm in week 1,
with €100 of cash, clock at week 3 and no blocks. -/
def sellState : GameState :=
  ⟨[resAsset], [⟨"T", 100⟩],
   [⟨"T", "A001", "RES-MAD-SALAMAN-01", "Residential", "Salamanca", 4200,
     5200, 1⟩], [], 3, []⟩

/-- Witness for C1 at the spec's example entry €5200/sqm (cap €5564) with
a proposed exit of €5500/sqm. -/
theorem sell_cap_rule_witness :
    (sellState.holdings.find?
        (fun x => x.name = "T" ∧ x.asset_id = "A001") =
      some ⟨"T", "A001", "RES-MAD-SALAMAN-01", "Residential", "Salamanca",
        4200, 5200, 1⟩ ∧
      (is_blocked sellState.sale_blocks "T" "A001"
        sellState.current_week).1 = false ∧
      get_team_cash sellState.teams "T" = some 100 ∧
      sellState.assets.find? (fun x => x.asset_id = "A001") =
        some resAsset) ∧
    (((5500 : ℚ) > round2 ((5200 : ℚ) * SALE_SOFT_CAP_FACTOR) →
      (sell_view sellState "T" "A001" 5500).1 =
        SellResult.rejectedCapExceeded ∧
      (sell_view sellState "T" "A001" 5500).2.sale_blocks.find?
          (fun b => b.name = "T" ∧ b.asset_id = "A001") =
        some ⟨"T", "A001", sellState.current_week + 1⟩ ∧
      (sell_view sellState "T" "A001" 5500).2.teams = sellState.teams ∧
      (sell_view sellState "T" "A001" 5500).2.holdings =
        sellState.holdings) ∧
    ((5500 : ℚ) ≤ round2 ((5200 : ℚ) * SALE_SOFT_CAP_FACTOR) →
      (sell_view sellState "T" "A001" 5500).1 = SellResult.success ∧
      get_team_cash (sell_view sellState "T" "A001" 5500).2.teams "T" =
        some (100 + ((4200 : Int) : ℚ) * 5500) ∧
      (sell_view sellState "T" "A001" 5500).2.holdings.find?
          (fun x => x.name = "T" ∧ x.asset_id = "A001") = none ∧
      (sell_view sellState "T" "A001" 5500).2.assets.find?
          (fun x => x.asset_id = "A001") =
        some { resAsset with ask_psm := 5500 } ∧
      (sell_view sellState "T" "A001" 5500).2.sale_blocks.find?
          (fun b => b.name = "T" ∧ b.asset_id = "A001") = none)) :=
  ⟨⟨by simp [sellState, resAsset], by simp [sellState, is_blocked],
    by simp [sellState, get_team_cash], by simp [sellState, resAsset]⟩,
   sell_cap_rule sellState "T" "A001" 5500 100
     ⟨"T", "A001", "RES-MAD-SALAMAN-01", "Residential", "Salamanca", 4200,
       5200, 1⟩ resAsset
     (by simp [sellState, resAsset]) (by simp [sellState, is_blocked])
     (by simp [sellState, get_team_cash]) (by simp [sellState, resAsset])⟩

/-- C3: buying an available (unheld) catalog asset with
`ticket = sqm × ask_psm`: with sufficient cash it succeeds, leaves cash
at `cash − ticket ≥ 0`, creates the holding at entry price `ask_psm` and
the current week, and does not change the catalog; with insufficient
cash it fails and changes nothing. -/
theorem buy_rule (s : GameState) (name aid : String) (c : ℚ) (a : Asset)
    (ha : s.assets.find? (fun x => x.asset_id = aid) = some a)
    (hav : s.holdings.any (fun h => h.asset_id = aid) = false)
    (hc : get_team_cash s.teams name = some c) :
    ((a.sqm : ℚ) * a.ask_psm ≤ c →
      (buy_view s name aid).1 = BuyResult.success ∧
      get_team_cash (buy_view s name aid).2.teams name =
        some (c - (a.sqm : ℚ) * a.ask_psm) ∧
      0 ≤ c - (a.sqm : ℚ) * a.ask_psm ∧
      (buy_view s name aid).2.holdings.find?
          (fun h => h.name = name ∧ h.asset_id = aid) =
        some ⟨name, aid, a.property_name, a.sector, a.location, a.sqm,
          a.ask_psm, s.current_week⟩ ∧
      (buy_view s name aid).2.assets = s.assets) ∧
    ((a.sqm : ℚ) * a.ask_psm > c →
      (buy_view s name aid).1 = BuyResult.insufficientFunds ∧
      (buy_view s name aid).2.teams = s.teams ∧
      (buy_view s name aid).2.holdings = s.holdings) := by
  have haid : a.asset_id = aid := by
    have := List.find?_some ha
    simpa using this
  have hens : ensure_team s.teams name = s.teams := ensure_team_of_get hc
  constructor
  · intro hle
    have hbuy : buy_view s name aid =
        (BuyResult.success,
         { s with
            teams := set_team_cash s.teams name (c - (a.sqm : ℚ) * a.ask_psm),
            holdings := add_holding s.holdings name a a.ask_psm
              s.current_week }) := by
      simp only [buy_view, hens, ha, hav, Bool.false_eq_true, if_false, hc,
        Option.getD_some, if_neg (not_lt.mpr hle)]
    rw [hbuy]
    refine ⟨rfl, get_set_team_cash _ hc, by linarith, ?_, rfl⟩
    simp [add_holding, haid]
  · intro hgt
    have hbuy : buy_view s name aid = (BuyResult.insufficientFunds, s) := by
      simp only [buy_view, hens, ha, hav, Bool.false_eq_true, if_false, hc,
        Option.getD_some, if_pos hgt]
    rw [hbuy]
    exact ⟨rfl, rfl, rfl⟩

/-- A market state: `resAsset` unheld, team `T` with €26m at week 1. -/
def marketState : GameState :=
  ⟨[resAsset], [⟨"T", 26000000⟩], [], [], 1, []⟩

/-- Witness for C3: buying `resAsset` (ticket €21,840,000) out of €26m. -/
theorem buy_rule_witness :
    (marketState.assets.find? (fun x => x.asset_id = "A001") =
        some resAsset ∧
      marketState.holdings.any (fun h => h.asset_id = "A001") = false ∧
      get_team_cash marketState.teams "T" = some 26000000) ∧
    (((resAsset.sqm : ℚ) * resAsset.ask_psm ≤ 26000000 →
      (buy_view marketState "T" "A001").1 = BuyResult.success ∧
      get_team_cash (buy_view marketState "T" "A001").2.teams "T" =
        some (26000000 - (resAsset.sqm : ℚ) * resAsset.ask_psm) ∧
      0 ≤ (26000000 : ℚ) - (resAsset.sqm : ℚ) * resAsset.ask_psm ∧
      (buy_view marketState "T" "A001").2.holdings.find?
          (fun h => h.name = "T" ∧ h.asset_id = "A001") =
        some ⟨"T", "A001", resAsset.property_name, resAsset.sector,
          resAsset.location, resAsset.sqm, resAsset.ask_psm,
          marketState.current_week⟩ ∧
      (buy_view marketState "T" "A001").2.assets = marketState.assets) ∧
    ((resAsset.sqm : ℚ) * resAsset.ask_psm > 26000000 →
      (buy_view marketState "T" "A001").1 = BuyResult.insufficientFunds ∧
      (buy_view marketState "T" "A001").2.teams = marketState.teams ∧
      (buy_view marketState "T" "A001").2.holdings =
        marketState.holdings)) :=
  ⟨⟨by simp [marketState, resAsset], by simp [marketState],
    by simp [marketState, get_team_cash]⟩,
   buy_rule marketState "T" "A001" 26000000 resAsset
     (by simp [marketState, resAsset]) (by simp [marketState])
     (by simp [marketState, get_team_cash])⟩

/-! ### End-week frame lemmas -/

lemma end_week_holdings (s : GameState) : (end_week s).holdings = s.holdings := by
  rw [end_week]
  split
  · rw [apply_curveball_holdings]
    rfl
  · rfl

lemma end_week_blocks (s : GameState) :
    (end_week s).sale_blocks = s.sale_blocks := by
  rw [end_week]
  split
  · rw [apply_curveball_blocks]
    rfl
  · rfl

lemma end_week_week_of_lt {s : GameState} (hw : s.current_week < END_WEEK) :
    (end_week s).current_week = s.current_week + 1 := by
  rw [end_week, if_pos hw, apply_curveball_week]

/-- The rejection branch of `sell_view`, in closed form. -/
lemma sell_view_reject_eq {s : GameState} {name aid : String} {p : ℚ}
    {h : Holding}
    (hh : s.holdings.find? (fun x => x.name = name ∧ x.asset_id = aid) = some h)
    (hb : (is_blocked s.sale_blocks name aid s.current_week).1 = false)
    (hp : p > round2 (h.entry_psm * SALE_SOFT_CAP_FACTOR)) :
    sell_view s name aid p =
      (SellResult.rejectedCapExceeded,
       { s with sale_blocks :=
           block_until_next_week s.sale_blocks name aid s.current_week }) := by
  simp only [sell_view, hh, hb, Bool.false_eq_true, if_false, if_pos hp]

/-- C7: after a cap-exceeding rejection at week `w`, any further sell
attempt for the pair at week `w` fails as blocked until `w + 1`, and
after the instructor ends the week (clock at `w + 1`) no sell attempt
for the pair is rejected on account of that block. -/
theorem sale_block_temporal (s : GameState) (name aid : String) (p : ℚ)
    (h : Holding)
    (hh : s.holdings.find? (fun x => x.name = name ∧ x.asset_id = aid) = some h)
    (hb : (is_blocked s.sale_blocks name aid s.current_week).1 = false)
    (hp : p > round2 (h.entry_psm * SALE_SOFT_CAP_FACTOR))
    (hw : s.current_week < END_WEEK) :
    (∀ q : ℚ, (sell_view (sell_view s name aid p).2 name aid q).1 =
      SellResult.blocked (s.current_week + 1)) ∧
    (∀ (q : ℚ) (u : Int),
      (sell_view (end_week (sell_view s name aid p).2) name aid q).1 ≠
        SellResult.blocked u) := by
  rw [sell_view_reject_eq hh hb hp]
  have hfb : (block_until_next_week s.sale_blocks name aid
        s.current_week).find? (fun b => b.name = name ∧ b.asset_id = aid) =
      some ⟨name, aid, s.current_week + 1⟩ := by
    simp [block_until_next_week]
  constructor
  · intro q
    have hib : is_blocked (block_until_next_week s.sale_blocks name aid
          s.current_week) name aid s.current_week =
        (true, s.current_week + 1) := by
      rw [is_blocked, hfb]
      simp
    simp only [sell_view, hh, hib, if_pos]
  · intro q u
    set s2 : GameState :=
      { s with sale_blocks :=
          block_until_next_week s.sale_blocks name aid s.current_week }
      with hs2
    have hh2 : (end_week s2).holdings.find?
        (fun x => x.name = name ∧ x.asset_id = aid) = some h := by
      rw [end_week_holdings]
      exact hh
    have hib2 : is_blocked (end_week s2).sale_blocks name aid
        (end_week s2).current_week = (false, s.current_week + 1) := by
      rw [end_week_blocks, end_week_week_of_lt (by exact hw)]
      rw [show s2.sale_blocks =
            block_until_next_week s.sale_blocks name aid s.current_week
          from rfl,
          show s2.current_week = s.current_week from rfl,
          is_blocked, hfb]
      simp
    simp only [sell_view, hh2, hib2, Bool.false_eq_true, if_false]
    split <;> simp

/-- Witness for C7: rejecting €6000/sqm (cap €5564) at week 3 blocks the
pair for the rest of week 3 and no longer at week 4. -/
theorem sale_block_temporal_witness :
    (sellState.holdings.find?
        (fun x => x.name = "T" ∧ x.asset_id = "A001") =
      some ⟨"T", "A001", "RES-MAD-SALAMAN-01", "Residential", "Salamanca",
        4200, 5200, 1⟩ ∧
      (is_blocked sellState.sale_blocks "T" "A001"
        sellState.current_week).1 = false ∧
      (6000 : ℚ) > round2 ((5200 : ℚ) * SALE_SOFT_CAP_FACTOR) ∧
      sellState.current_week < END_WEEK) ∧
    ((∀ q : ℚ, (sell_view (sell_view sellState "T" "A001" 6000).2
        "T" "A001" q).1 = SellResult.blocked (sellState.current_week + 1)) ∧
    (∀ (q : ℚ) (u : Int),
      (sell_view (end_week (sell_view sellState "T" "A001" 6000).2)
        "T" "A001" q).1 ≠ SellResult.blocked u)) :=
  ⟨⟨by simp [sellState, resAsset], by simp [sellState, is_blocked],
    by norm_num [round2, roundTo, SALE_SOFT_CAP_FACTOR], by decide⟩,
   sale_block_temporal sellState "T" "A001" 6000
     ⟨"T", "A001", "RES-MAD-SALAMAN-01", "Residential", "Salamanca", 4200,
       5200, 1⟩
     (by simp [sellState, resAsset])
     (by simp [sellState, is_blocked])
     (by norm_num [round2, roundTo, SALE_SOFT_CAP_FACTOR]) (by decide)⟩

/-- C8: the week-2 shock on a Retail asset with ERV 181.50 sets the ERV
to `round2(181.50 × 0.95) = 172.43` and recomputes the passing rent as
the new ERV times the asset's profile factor, every other field
(including the vacancy fraction) unchanged. -/
theorem week2_retail_shock (s : GameState) (aid : String) (a : Asset)
    (hna : curveball_applied s.applied_curveballs 2 = false)
    (ha : s.assets.find? (fun x => x.asset_id = aid) = some a)
    (hs : a.sector = "Retail")
    (he : a.erv_psm = 363/2) :
    (apply_curveball_effects 2 s).assets.find? (fun x => x.asset_id = aid) =
      some { a with erv_psm := 17243/100,
                    passing_psm := round2 ((17243/100) *
                      (profile_factors
                        (classify_profile a.location a.sector)).1) } := by
  have hassets : (apply_curveball_effects 2 s).assets =
      s.assets.map (fun x => recompute_passing
        (curveball_update 2 (s.holdings.map (fun h => h.asset_id)) x)) := by
    simp [apply_curveball_effects, hna, Function.comp_def]
  have hkey : ∀ x : Asset,
      (recompute_passing (curveball_update 2
        (s.holdings.map (fun h => h.asset_id)) x)).asset_id = x.asset_id := by
    intro x
    by_cases hx : x.sector = "Retail" <;>
      simp [curveball_update, recompute_passing, hx]
  rw [hassets, find?_map_key s.assets Asset.asset_id aid _ hkey, ha]
  rw [show Option.map (fun x => recompute_passing (curveball_update 2
        (s.holdings.map (fun h => h.asset_id)) x)) (some a) =
      some (recompute_passing (curveball_update 2
        (s.holdings.map (fun h => h.asset_id)) a)) from rfl]
  have herv : round2 (a.erv_psm * (95/100)) = 17243/100 := by
    rw [he]
    norm_num [round2, roundTo]
  simp [curveball_update, recompute_passing, hs, herv]

/-- The Retail asset A025 seeded with ERV €181.50/sqm/mo. -/
def retAsset : Asset :=
  ⟨"A025", "RET-MAD-SALAMAN-25", "Retail", "Salamanca", 3000, 3300, 363/2,
   231/10, 33/2, 363/2, 4/100⟩

/-- A state at week 2 before the week-2 shock, with `retAsset` on market. -/
def shockState : GameState := ⟨[retAsset], [], [], [], 2, []⟩

/-- Witness for C8 on `retAsset` (Core profile, factor 1.00). -/
theorem week2_retail_shock_witness :
    (curveball_applied shockState.applied_curveballs 2 = false ∧
      shockState.assets.find? (fun x => x.asset_id = "A025") =
        some retAsset ∧
      retAsset.sector = "Retail" ∧ retAsset.erv_psm = 363/2) ∧
    (apply_curveball_effects 2 shockState).assets.find?
        (fun x => x.asset_id = "A025") =
      some { retAsset with erv_psm := 17243/100,
                           passing_psm := round2 ((17243/100) *
                             (profile_factors (classify_profile
                               retAsset.location retAsset.sector)).1) } :=
  ⟨⟨rfl, by simp [shockState, retAsset], rfl, rfl⟩,
   week2_retail_shock shockState "A025" retAsset rfl
     (by simp [shockState, retAsset]) rfl rfl⟩

/-! ### Global supply invariant (C6) -/

/-- Each asset appears in at most one holding across all teams. -/
def holdings_supply_inv (s : GameState) : Prop :=
  (s.holdings.map (fun h => h.asset_id)).Nodup

/-- States reachable from a fresh database (any seeded catalog, no teams,
no holdings, no blocks, week `START_WEEK`, empty shock log) through the
app's operations: buy, sell, the End-Week button, the accrue-only button
and the re-apply-curveball button (reset returns to an initial state). -/
inductive Reachable : GameState → Prop where
  | init (assets : List Asset) :
      Reachable ⟨assets, [], [], [], START_WEEK, []⟩
  | buy (s : GameState) (name aid : String) :
      Reachable s → Reachable (buy_view s name aid).2
  | sell (s : GameState) (name aid : String) (p : ℚ) :
      Reachable s → Reachable (sell_view s name aid p).2
  | advance (s : GameState) : Reachable s → Reachable (end_week s)
  | accrueOnly (s : GameState) :
      Reachable s → Reachable (accrue_weekly_income_all_teams s)
  | reapply (s : GameState) (w : Int) :
      Reachable s → Reachable (apply_curveball_effects w s)

lemma nodup_map_filter {α β : Type} (l : List α) (f : α → β) (p : α → Bool)
    (hnd : (l.map f).Nodup) : ((l.filter p).map f).Nodup :=
  hnd.sublist ((List.filter_sublist l).map f)

lemma nodup_add_holding {holdings : List Holding} {name : String} {a : Asset}
    {e : ℚ} {w : Int}
    (hnd : (holdings.map (fun h => h.asset_id)).Nodup)
    (hun : holdings.any (fun h => h.asset_id = a.asset_id) = false) :
    ((add_holding holdings name a e w).map (fun h => h.asset_id)).Nodup := by
  rw [add_holding, List.map_cons, List.nodup_cons]
  refine ⟨?_, nodup_map_filter _ _ _ hnd⟩
  intro hmem
  obtain ⟨h, hh, hid⟩ := List.mem_map.mp hmem
  have hh' := List.mem_of_mem_filter hh
  have hall := List.any_eq_false.mp hun h hh'
  simp only [decide_eq_true_eq] at hall
  exact hall hid

lemma inv_buy (s : GameState) (name aid : String)
    (hs : holdings_supply_inv s) :
    holdings_supply_inv (buy_view s name aid).2 := by
  rw [holdings_supply_inv] at hs ⊢
  rcases hfa : s.assets.find? (fun a => a.asset_id = aid) with _ | a
  · simpa [buy_view, hfa] using hs
  · have haid : a.asset_id = aid := by simpa using List.find?_some hfa
    by_cases hheld : s.holdings.any (fun h => h.asset_id = aid) = true
    · simpa [buy_view, hfa, hheld] using hs
    · have hheld' : s.holdings.any (fun h => h.asset_id = aid) = false := by
        simpa using hheld
      by_cases hcash : ((a.sqm : ℚ) * a.ask_psm) >
          (get_team_cash (ensure_team s.teams name) name).getD 0
      · simpa [buy_view, hfa, hheld', hcash] using hs
      · have hres : (buy_view s name aid).2.holdings =
            add_holding s.holdings name a a.ask_psm s.current_week := by
          simp [buy_view, hfa, hheld', hcash]
        rw [hres]
        exact nodup_add_holding hs (haid ▸ hheld')

lemma inv_sell (s : GameState) (name aid : String) (p : ℚ)
    (hs : holdings_supply_inv s) :
    holdings_supply_inv (sell_view s name aid p).2 := by
  rw [holdings_supply_inv] at hs ⊢
  rcases hfh : s.holdings.find?
      (fun x => x.name = name ∧ x.asset_id = aid) with _ | h
  · have hres : (sell_view s name aid p).2 = s := by
      simp only [sell_view, hfh]
    rw [hres]
    exact hs
  · by_cases hbl : (is_blocked s.sale_blocks name aid s.current_week).1 = true
    · have hres : (sell_view s name aid p).2 = s := by
        simp only [sell_view, hfh, hbl, eq_self_iff_true, if_true]
      rw [hres]
      exact hs
    · have hbl' : (is_blocked s.sale_blocks name aid s.current_week).1 = false := by
        simpa using hbl
      by_cases hcap : p > round2 (h.entry_psm * SALE_SOFT_CAP_FACTOR)
      · have hres : (sell_view s name aid p).2.holdings = s.holdings := by
          rw [sell_view_reject_eq hfh hbl' hcap]
        rw [hres]
        exact hs
      · have hres : (sell_view s name aid p).2.holdings =
            remove_holding s.holdings name aid := by
          simp only [sell_view, hfh, hbl', Bool.false_eq_true, if_false,
            if_neg (not_lt.mpr (not_lt.mp hcap))]
        rw [hres, remove_holding]
        exact nodup_map_filter _ _ _ hs

/-- C6: every reachable state satisfies the global supply invariant —
each asset is held by at most one team — and a buy can only succeed for
an asset that appears in no team's holdings. -/
theorem global_supply (s : GameState) (hr : Reachable s) :
    holdings_supply_inv s ∧
    ∀ (name aid : String),
      (buy_view s name aid).1 = BuyResult.success →
      s.holdings.any (fun h => h.asset_id = aid) = false := by
  constructor
  · induction hr with
    | init assets => simp [holdings_supply_inv]
    | buy s name aid _ ih => exact inv_buy s name aid ih
    | sell s name aid p _ ih => exact inv_sell s name aid p ih
    | advance s _ ih =>
      rw [holdings_supply_inv, end_week_holdings]
      exact ih
    | accrueOnly s _ ih =>
      rw [holdings_supply_inv, accrue_holdings]
      exact ih
    | reapply s w _ ih =>
      rw [holdings_supply_inv, apply_curveball_holdings]
      exact ih
  · intro name aid hsucc
    rcases hfa : s.assets.find? (fun a => a.asset_id = aid) with _ | a
    · have : (buy_view s name aid).1 = BuyResult.assetNotFound := by
        simp [buy_view, hfa]
      rw [this] at hsucc
      cases hsucc
    · by_cases hheld : s.holdings.any (fun h => h.asset_id = aid) = true
      · have : (buy_view s name aid).1 = BuyResult.assetUnavailable := by
          simp [buy_view, hfa, hheld]
        rw [this] at hsucc
        cases hsucc
      · simpa using hheld

/-- Witness for C6 at a freshly initialised empty-catalog state. -/
theorem global_supply_witness :
    holdings_supply_inv ⟨[], [], [], [], START_WEEK, []⟩ ∧
    ∀ (name aid : String),
      (buy_view ⟨[], [], [], [], START_WEEK, []⟩ name aid).1 =
        BuyResult.success →
      (⟨[], [], [], [], START_WEEK, []⟩ : GameState).holdings.any
        (fun h => h.asset_id = aid) = false :=
  global_supply ⟨[], [], [], [], START_WEEK, []⟩ (Reachable.init [])

end ReGame
